import Mathlib

/-!
Shallow embedding of the multi-tier product-resolution pipeline of the
Web-scrapper-python repository (Walmart and Chedraui site scrapers), together
with proofs about the price parser, the per-term strategy chain, the search
orchestrator and the merge layer.

Python strings are modelled as `List Char` / `String`, Python floats as `ℚ`
(price texts are decimal literals, exactly representable), Python `None` as
`Option`, and Python exceptions as `Except String`.  Each definition is
translated from the named source function.
-/

namespace Scrapper

/-! ## Generic Python-style string helpers -/

/-- Numeric value of a decimal digit character. -/
def digVal (c : Char) : Nat := c.toNat - 48

/-- Value of a big-endian list of decimal digit characters
(`int("" .. digits .. "")`, also the integer part of `float`). -/
def natOfDigits (l : List Char) : Nat :=
  l.foldl (fun a c => 10 * a + digVal c) 0

/-- Split a character list at every `'.'` (Python `str.split('.')`):
`splitDots "1.2" = ["1","2"]`, `splitDots "" = [""]`.  The recursive result
is never `[]`, so prepending to its head is the non-separator case. -/
def splitDots : List Char → List (List Char)
  | [] => [[]]
  | c :: rest =>
    let r := splitDots rest
    if c = '.' then [] :: r else (c :: r.headD []) :: r.tail

/-- Model of Python `float(s)` restricted to strings made of decimal digits
and `'.'` — the only shapes the scrapers' cleaned price strings can take.
Returns `none` exactly when Python `float` raises `ValueError`: empty string,
a lone `'.'`, more than one `'.'`, or any non-digit character. -/
def parseFloat (l : List Char) : Option ℚ :=
  if l.all (fun c => c.isDigit || c == '.') then
    match splitDots l with
    | [ip] => if ip.isEmpty then none else some (natOfDigits ip)
    | [ip, fp] =>
      if ip.isEmpty && fp.isEmpty then none
      else some ((natOfDigits ip : ℚ) + (natOfDigits fp : ℚ) / 10 ^ fp.length)
    | _ => none
  else none

/-- Does `needle` match at the head of `hay`? -/
def leadMatch : List Char → List Char → Bool
  | [], _ => true
  | _ :: _, [] => false
  | a :: as, b :: bs => a == b && leadMatch as bs

/-- Python `needle in hay` for a non-empty needle: does `needle` occur as a
contiguous substring of `hay`? -/
def hasSub (needle : List Char) : List Char → Bool
  | [] => false
  | c :: rest => leadMatch needle (c :: rest) || hasSub needle rest

/-- Python `hay.split(needle)[0]`: the part of `hay` before the first
occurrence of `needle` (all of `hay` when `needle` does not occur). -/
def splitFirst (needle : List Char) : List Char → List Char
  | [] => []
  | c :: rest =>
    if leadMatch needle (c :: rest) then [] else c :: splitFirst needle rest

/-- Python `str.strip()`: drop whitespace from both ends. -/
def pyStrip (s : String) : String :=
  ⟨(s.data.dropWhile Char.isWhitespace).reverse.dropWhile Char.isWhitespace |>.reverse⟩

/-- Python `str.capitalize()`: first character upper-cased, the rest
lower-cased. -/
def pyCapitalize (s : String) : String :=
  match s.data with
  | [] => ""
  | c :: cs => ⟨c.toUpper :: cs.map Char.toLower⟩

/-- Python truthiness of a string: non-empty. -/
def pyTruthy (s : String) : Bool := !s.data.isEmpty

/-! ## WalmartScraper.extract_price (walmart_scraper.py lines 810-857) -/

/-- Character list of the current-price echo marker `"precio actual"`. -/
def precioMarker : List Char := "precio actual".data

/-- Step 1 of `WalmartScraper.extract_price`: when the marker occurs, keep
only the text before its first occurrence
(`price_text.split("precio actual")[0]`). -/
def walmartMarkerCut (l : List Char) : List Char :=
  if hasSub precioMarker l then splitFirst precioMarker l else l

/-- Step 2 of `WalmartScraper.extract_price`:
`re.sub(r'[^\d.,]', '', price_text)` — keep only digits, `'.'` and `','`. -/
def walmartStrip (l : List Char) : List Char :=
  l.filter (fun c => c.isDigit || c == '.' || c == ',')

/-- Step 3 of `WalmartScraper.extract_price`: separator disambiguation.
When both `','` and `'.'` occur the commas are removed
(`clean_price.replace(',', '')`); when only `','` occurs every comma becomes
a decimal point (`clean_price.replace(',', '.')`). -/
def walmartSepFix (l : List Char) : List Char :=
  if l.contains ',' && l.contains '.' then l.filter (fun c => !(c == ','))
  else if l.contains ',' then l.map (fun c => if c == ',' then '.' else c)
  else l

/-- Steps 1-3 combined: the cleaned string before the duplication check. -/
def walmartSepClean (l : List Char) : List Char :=
  walmartSepFix (walmartStrip (walmartMarkerCut l))

/-- Duplication condition of `WalmartScraper.extract_price` line 849:
`len(clean_price) > 8 and clean_price[:4] == clean_price[4:8]`. -/
def walmartDupCond (l : List Char) : Bool :=
  decide (l.length > 8) && l.take 4 == (l.drop 4).take 4

/-- Step 4 of `WalmartScraper.extract_price`: when the duplication condition
holds take the first half (`clean_price[:len(clean_price)//2]`). -/
def walmartDupFix (l : List Char) : List Char :=
  if walmartDupCond l then l.take (l.length / 2) else l

/-- Full cleaning pipeline of `WalmartScraper.extract_price`. -/
def walmartClean (l : List Char) : List Char :=
  walmartDupFix (walmartSepClean l)

/-- Model of `WalmartScraper.extract_price` (walmart_scraper.py:810).
`none` models Python `None`; the `ValueError`/`TypeError` handler returns
`0.0`, so conversion failure yields `0`. -/
def walmartExtractPrice : Option String → ℚ
  | none => 0
  | some s =>
    if !pyTruthy s then 0
    else
      match parseFloat (walmartClean s.data) with
      | some q => q
      | none => 0

/-! ## ChedrauiScraper.extract_price (chedraui_scraper.py lines 543-572) -/

/-- Match of `\d+(?:[.,]\d+)?` at the head of `l` (greedy), returning the
matched characters: used for group 1 of `re.search(r'\$\s*(\d+(?:[.,]\d+)?)', …)`. -/
def chedrauiNumMatch (l : List Char) : Option (List Char) :=
  let ds := l.takeWhile Char.isDigit
  if ds.isEmpty then none
  else
    match l.drop ds.length with
    | sep :: r2 =>
      if sep == '.' || sep == ',' then
        let fs := r2.takeWhile Char.isDigit
        if fs.isEmpty then some ds else some (ds ++ sep :: fs)
      else some ds
    | [] => some ds

/-- Model of `re.search(r'\$\s*(\d+(?:[.,]\d+)?)', price_text)`: scan for the
first `'$'` that is followed (after optional whitespace) by digits, and
return the numeric group. -/
def chedrauiPriceSearch : List Char → Option (List Char)
  | [] => none
  | '$' :: rest =>
    match chedrauiNumMatch (rest.dropWhile Char.isWhitespace) with
    | some g => some g
    | none => chedrauiPriceSearch rest
  | _ :: rest => chedrauiPriceSearch rest

/-- Model of `ChedrauiScraper.extract_price` (chedraui_scraper.py:543).
When the `$`-anchored pattern matches, the group has its comma replaced by a
dot and is converted; otherwise every comma becomes a dot and all characters
except digits and dots are removed before conversion.  Conversion failure
(`ValueError`/`TypeError`) yields `0.0`. -/
def chedrauiExtractPrice : Option String → ℚ
  | none => 0
  | some s =>
    if !pyTruthy s then 0
    else
      match chedrauiPriceSearch s.data with
      | some g =>
        match parseFloat (g.map (fun c => if c == ',' then '.' else c)) with
        | some q => q
        | none => 0
      | none =>
        let cleaned := (s.data.map (fun c => if c == ',' then '.' else c)).filter
          (fun c => c.isDigit || c == '.')
        match parseFloat cleaned with
        | some q => q
        | none => 0

/-! ## Evaluation lemmas for concrete price strings -/

theorem splitDots_of_no_dot (l : List Char) (h : '.' ∉ l) :
    splitDots l = [l] := by
  induction l with
  | nil => rfl
  | cons c rest ih =>
    have hc : ¬ (c = '.') := fun he => h (he ▸ List.mem_cons_self c rest)
    rw [splitDots, ih (fun hm => h (List.mem_cons_of_mem c hm))]
    simp [hc]

theorem splitDots_append (a b : List Char) (h : '.' ∉ a) :
    splitDots (a ++ '.' :: b) = a :: splitDots b := by
  induction a with
  | nil => simp [splitDots]
  | cons c rest ih =>
    have hc : ¬ (c = '.') := fun he => h (he ▸ List.mem_cons_self c rest)
    rw [List.cons_append, splitDots, ih (fun hm => h (List.mem_cons_of_mem c hm))]
    simp [hc]

theorem splitDots_ne_nil (l : List Char) : splitDots l ≠ [] := by
  cases l with
  | nil => simp [splitDots]
  | cons c rest =>
    rw [splitDots]
    split <;> simp

theorem digit_not_dot (l : List Char) (h : l.all Char.isDigit = true) : '.' ∉ l := by
  intro hm
  rw [List.all_eq_true] at h
  exact absurd (h _ hm) (by decide)

/-- Evaluation of `parseFloat` on a digit string with one interior dot. -/
theorem parseFloat_dot (ip fp : List Char)
    (hip : ip.all Char.isDigit = true) (hfp : fp.all Char.isDigit = true)
    (hne : fp ≠ []) :
    parseFloat (ip ++ '.' :: fp) =
      some ((natOfDigits ip : ℚ) + (natOfDigits fp : ℚ) / 10 ^ fp.length) := by
  have hall : (ip ++ '.' :: fp).all (fun c => c.isDigit || c == '.') = true := by
    rw [List.all_eq_true]
    intro c hc
    rcases List.mem_append.mp hc with h1 | h1
    · simp [List.all_eq_true.mp hip c h1]
    · rcases List.mem_cons.mp h1 with h2 | h2
      · simp [h2]
      · simp [List.all_eq_true.mp hfp c h2]
  rw [parseFloat.eq_def, if_pos hall, splitDots_append ip fp (digit_not_dot ip hip),
    splitDots_of_no_dot fp (digit_not_dot fp hfp)]
  simp [hne]

/-- Evaluation of `parseFloat` on a pure digit string. -/
theorem parseFloat_int (l : List Char) (hl : l.all Char.isDigit = true) (hne : l ≠ []) :
    parseFloat l = some (natOfDigits l) := by
  have hall : l.all (fun c => c.isDigit || c == '.') = true := by
    rw [List.all_eq_true]
    intro c hc
    simp [List.all_eq_true.mp hl c hc]
  rw [parseFloat.eq_def, if_pos hall, splitDots_of_no_dot l (digit_not_dot l hl)]
  simp [hne]

/-! ## Product records

Canonical product record produced by every strategy: Python dict keys
`name, brand, price, price_text, product_id, image_url, product_url, query,
source, note`.  A key that a strategy does not set is modelled as its default
(`""` / `0`), matching how the merge code reads absent keys with
`p.get('product_id', '')`. -/

structure Record where
  name : String := ""
  brand : String := ""
  price : ℚ := 0
  price_text : String := ""
  product_id : String := ""
  image_url : String := ""
  product_url : String := ""
  query : String := ""
  source : String := ""
  note : String := ""
deriving DecidableEq, Repr

/-- Loop `for product in products: product['source'] = tag` used by
`WalmartScraper.search_product` on each strategy's result. -/
def setSource (tag : String) (ps : List Record) : List Record :=
  ps.map (fun p => { p with source := tag })

/-! ## WalmartScraper.search_product (walmart_scraper.py lines 754-808)

The four per-term retrieval strategies — `search_product_direct_api`,
the GraphQL part of `search_product_graphql_api`,
`extract_products_from_search_page` and `search_product_html` — perform HTTP
and HTML work, so they enter the model as oracle functions from the query to
their record list.  Each of those methods wraps its whole body in
`try/except Exception` and returns `[]` on failure, which is modelled
separately by `walmartCatch` below. -/

structure WalmartStrategies where
  directApi : String → List Record
  graphqlOnly : String → List Record
  searchPage : String → List Record
  htmlScrape : String → List Record

/-- Model of `WalmartScraper.search_product_graphql_api` (walmart_scraper.py:275):
it first retries `search_product_direct_api` and only queries the GraphQL
endpoint when the direct API returned nothing. -/
def walmartGraphqlApi (S : WalmartStrategies) (q : String) : List Record :=
  let direct := S.directApi q
  if direct ≠ [] then direct else S.graphqlOnly q

/-- Model of `WalmartScraper.search_product` (walmart_scraper.py:754): try the
direct API, the GraphQL API, the search-page extraction and finally HTML
scraping, returning at the first non-empty list after overwriting each
record's `source` field, and `[]` when everything failed. -/
def walmartSearchProduct (S : WalmartStrategies) (useApi : Bool) (q : String) :
    List Record :=
  if useApi then
    let r1 := S.directApi q
    if r1 ≠ [] then setSource "api-direct" r1
    else
      let r2 := walmartGraphqlApi S q
      if r2 ≠ [] then setSource "api-graphql" r2
      else
        let r3 := S.searchPage q
        if r3 ≠ [] then setSource "search-page" r3
        else
          let r4 := S.htmlScrape q
          if r4 ≠ [] then setSource "html" r4 else []
  else
    let r4 := S.htmlScrape q
    if r4 ≠ [] then setSource "html" r4 else []

/-- Strategy identifiers of the Walmart chain, for call instrumentation. -/
inductive WStrat
  | direct
  | graphql
  | searchPage
  | html
deriving DecidableEq, Repr

/-- Instrumented variant of `walmartSearchProduct`: same control flow, but
also returns the list of strategy invocations in call order (the direct API
is invoked a second time from inside `search_product_graphql_api`). -/
def walmartSearchProductTr (S : WalmartStrategies) (useApi : Bool) (q : String) :
    List Record × List WStrat :=
  if useApi then
    let r1 := S.directApi q
    if r1 ≠ [] then (setSource "api-direct" r1, [WStrat.direct])
    else
      let r2 := walmartGraphqlApi S q
      if r2 ≠ [] then (setSource "api-graphql" r2,
        [WStrat.direct, WStrat.direct, WStrat.graphql])
      else
        let r3 := S.searchPage q
        if r3 ≠ [] then (setSource "search-page" r3,
          [WStrat.direct, WStrat.direct, WStrat.graphql, WStrat.searchPage])
        else
          let r4 := S.htmlScrape q
          let tr := [WStrat.direct, WStrat.direct, WStrat.graphql,
            WStrat.searchPage, WStrat.html]
          if r4 ≠ [] then (setSource "html" r4, tr) else ([], tr)
  else
    let r4 := S.htmlScrape q
    if r4 ≠ [] then (setSource "html" r4, [WStrat.html]) else ([], [WStrat.html])

/-! ## Exception behaviour of the strategy boundaries

Python exceptions are modelled with `Except String`.  Each Walmart strategy
method wraps its body in `try/except Exception: return []`
(walmart_scraper.py lines 271-273, 411-413, 618-620, 750-752), modelled by
`walmartCatch`.  `ChedrauiScraper.search_product_api` does the same
(chedraui_scraper.py lines 220-223), but the HTML fallback of
`ChedrauiScraper.search_product` calls `BaseScraper.get_page`, which re-raises
transport failures (base_scraper.py:53-55, asserted by
`test_get_page_error`). -/

def walmartCatch (body : String → Except String (List Record)) (q : String) :
    List Record :=
  match body q with
  | Except.ok ps => ps
  | Except.error _ => []

/-- Walmart strategy bodies before their `try/except` wrappers: any of them
may raise. -/
structure WalmartBodies where
  directApiBody : String → Except String (List Record)
  graphqlBody : String → Except String (List Record)
  searchPageBody : String → Except String (List Record)
  htmlBody : String → Except String (List Record)

/-- Strategies obtained by catching each body's exceptions at its boundary. -/
def walmartStrategiesOf (B : WalmartBodies) : WalmartStrategies where
  directApi := walmartCatch B.directApiBody
  graphqlOnly := walmartCatch B.graphqlBody
  searchPage := walmartCatch B.searchPageBody
  htmlScrape := walmartCatch B.htmlBody

/-- Model of `WalmartScraper.search_product` over fallible strategy bodies:
every strategy's exceptions are caught at its own boundary, so the chain
itself is a total function into `Except` that can be proved to never error. -/
def walmartSearchProductE (B : WalmartBodies) (useApi : Bool) (q : String) :
    Except String (List Record) :=
  Except.ok (walmartSearchProduct (walmartStrategiesOf B) useApi q)

/-! ## ChedrauiScraper.search_product (chedraui_scraper.py lines 252-279) -/

/-- Chedraui base URL (constructor default). -/
def chedrauiBase : String := "https://www.chedraui.com.mx"

/-- Search URL built by `ChedrauiScraper.search_product` line 273. -/
def chedrauiSearchUrl (q : String) : String :=
  chedrauiBase ++ "/" ++ q ++ "?_q=" ++ q ++ "&map=ft"

/-- Environment of `ChedrauiScraper.search_product` over an abstract parsed
page type.  `apiBody` is the body of `search_product_api` (may raise;
exceptions are caught inside that method), `fetchPage` is
`BaseScraper.get_page` composed with `parse_html` (raises on transport
failure), and `extract` is `_extract_products` applied to the parsed page. -/
structure ChedrauiEnv (Page : Type) where
  apiBody : String → Except String (List Record)
  fetchPage : String → Except String Page
  extract : Page → String → String → List Record

/-- Model of `ChedrauiScraper.search_product_api` (chedraui_scraper.py:66):
the whole body is inside `try/except Exception: return []`. -/
def chedrauiSearchProductApi {Page : Type} (env : ChedrauiEnv Page) (q : String) :
    List Record :=
  match env.apiBody q with
  | Except.ok ps => ps
  | Except.error _ => []

/-- Model of `ChedrauiScraper.search_product` (chedraui_scraper.py:252): try
the API when enabled and return its records if non-empty; otherwise fetch the
search page — `get_page` re-raises transport failures, which therefore
propagate — and run `_extract_products` on it. -/
def chedrauiSearchProduct {Page : Type} (env : ChedrauiEnv Page) (useApi : Bool)
    (q : String) : Except String (List Record) :=
  if useApi ∧ chedrauiSearchProductApi env q ≠ [] then
    Except.ok (chedrauiSearchProductApi env q)
  else
    match env.fetchPage (chedrauiSearchUrl q) with
    | Except.error e => Except.error e
    | Except.ok page => Except.ok (env.extract page q (chedrauiSearchUrl q))

/-! ## ChedrauiScraper._extract_products (chedraui_scraper.py lines 281-541)

The parsed page is modelled as the collections of elements that each of the
function's queries would return, with per-element sub-queries resolved to
their extracted values (`extract_text`/`extract_attribute` return `""` for a
missing element or attribute; an attribute whose value is Python `None` is
modelled as `""`, no claim depends on it). -/

/-- Element of the CSS-selector stage, with its sub-queries resolved:
`name` is `extract_text` of the `productBrand` span, `priceText` the text of
the first matching price selector, `imageSrc`/`linkHref` the resolved
`src`/`href` attributes. -/
structure SElem where
  name : String
  priceText : String
  imageSrc : String
  linkHref : String
deriving DecidableEq, Repr

/-- Element of the XPath stages: `priceText`/`nameText` are the raw
`text_content()` of the first `currencyContainer`/`productBrand` descendant
(`none` when the descendant query matched nothing), `imageSrc`/`linkHref` the
resolved attribute values, and `textContent` the element's own
`text_content()` (used by the original-XPath fallback). -/
structure XElem where
  priceText : Option String
  nameText : Option String
  imageSrc : String
  linkHref : String
  textContent : String
deriving DecidableEq, Repr

/-- Outcome of the 5-level ancestor walk of the general fallback
(chedraui_scraper.py lines 511-522): a name element was found, or all 5
parents existed but held no name element (Python's `for … else` then assigns
the default name), or a missing parent ended the walk early (the `name`
variable is left at whatever a previous iteration bound — a `NameError` when
there was none). -/
inductive NameWalk
  | found (raw : String)
  | exhausted
  | deadEnd
deriving DecidableEq, Repr

/-- Element of the general fallback stage: `priceText` is
`extract_text(price_elem)` and `walk` the ancestor-walk outcome. -/
structure FElem where
  priceText : String
  walk : NameWalk
deriving DecidableEq, Repr

/-- Parsed Chedraui search page, as seen through the queries of
`_extract_products`. -/
structure ChedrauiSoup where
  galleryChedrauimx : List SElem
  galleryVtex : List SElem
  containerVtex : List SElem
  literalPath : List XElem
  containsGalleryItem : List XElem
  containsContainer : List XElem
  containsElement : List XElem
  fallbackPrices : List FElem

/-- URL cleanup used throughout the scraper:
`if product_url and not product_url.startswith("http"): base + product_url`. -/
def fixUrl (base u : String) : String :=
  if pyTruthy u && !u.startsWith "http" then base ++ u else u

/-- Product-id extraction of chedraui_scraper.py lines 351-361: match
`\/([^\/]+)\/p$` against the product URL, then take the trailing digits
(`(\d+)$`) of that segment; `""` when either regex fails or the URL is
falsy. -/
def urlPid (url : String) : String :=
  if !pyTruthy url then ""
  else
    match url.data.reverse with
    | 'p' :: '/' :: rest =>
      let segRev := rest.takeWhile (fun c => !(c == '/'))
      if segRev.isEmpty then ""
      else if (rest.drop segRev.length).head? ≠ some '/' then ""
      else ⟨(segRev.takeWhile Char.isDigit).reverse⟩
    | _ => ""

/-- Record built from one CSS-selector element (chedraui_scraper.py lines
313-373). -/
def selElemRecord (q : String) (e : SElem) : Record :=
  let purl := fixUrl chedrauiBase e.linkHref
  { name := e.name, price := chedrauiExtractPrice (some e.priceText),
    price_text := e.priceText, image_url := e.imageSrc, product_url := purl,
    product_id := urlPid purl, query := q, source := "html" }

/-- CSS-selector stage (strategy 4): first selector set with any elements is
used; records with an empty name are silently dropped (line 376
`if name: products.append(...)`). -/
def chedrauiSelectorStage (soup : ChedrauiSoup) (q : String) : List Record :=
  let elems :=
    if soup.galleryChedrauimx ≠ [] then soup.galleryChedrauimx
    else if soup.galleryVtex ≠ [] then soup.galleryVtex
    else soup.containerVtex
  (elems.map (selElemRecord q)).filter (fun r => pyTruthy r.name)

/-- Literal structural path queried first by the XPath stage
(chedraui_scraper.py line 401). -/
def chedrauiLiteralXpath : String := "/html/body/div[2]/div/div[1]/div/div[4]/div/div"

/-- Semantic "contains class" paths tried when the literal path matched
nothing (chedraui_scraper.py lines 405-409). -/
def chedrauiXpathA : String := "//div[contains(@class, \"chedrauimx-search-result-3-x-galleryItem\")]"

def chedrauiXpathB : String := "//section[contains(@class, \"vtex-product-summary-2-x-container\")]"

def chedrauiXpathC : String := "//div[contains(@class, \"vtex-product-summary-2-x-element\")]"

/-- Record built from one XPath element (chedraui_scraper.py lines 417-461):
nothing is produced when the element has no `currencyContainer` descendant;
the name falls back to `f"{query.capitalize()} {i+1}"`. -/
def xpathElemRecord (q xp : String) (i : Nat) (e : XElem) : Option Record :=
  match e.priceText with
  | none => none
  | some ptRaw =>
    let pt := pyStrip ptRaw
    let nm :=
      match e.nameText with
      | some n => pyStrip n
      | none => pyCapitalize q ++ " " ++ toString (i + 1)
    some { name := nm, price := chedrauiExtractPrice (some pt), price_text := pt,
           image_url := e.imageSrc, product_url := fixUrl chedrauiBase e.linkHref,
           query := q, source := "xpath", note := "Extracted using XPath: " ++ xp }

/-- Records collected from one "contains class" path: only the first 10
elements are processed (`for i, elem in enumerate(elements[:10])`). -/
def xpathPathRecords (q xp : String) (elems : List XElem) : List Record :=
  (elems.take 10).enum.filterMap (fun ie => xpathElemRecord q xp ie.1 ie.2)

/-- XPath stage, first block (chedraui_scraper.py lines 383-468, strategy 5):
the literal path is queried first; each "contains class" path is processed
only when the literal path matched no elements (`if not price_elements:`,
which none of the loop iterations updates), and their records accumulate.
The literal path's own elements are not turned into records here — that
happens in `chedrauiOrigXpathStage`. -/
def chedrauiXpathStage (soup : ChedrauiSoup) (q : String) : List Record :=
  if soup.literalPath ≠ [] then []
  else
    xpathPathRecords q chedrauiXpathA soup.containsGalleryItem
      ++ xpathPathRecords q chedrauiXpathB soup.containsContainer
      ++ xpathPathRecords q chedrauiXpathC soup.containsElement

/-- XPath stage, second block (chedraui_scraper.py lines 470-498): when the
previous stages produced nothing, every element of the literal path — with
no 10-element bound — whose text content is non-empty becomes a record
tagged `xpath-original`. -/
def chedrauiOrigXpathStage (soup : ChedrauiSoup) (q url : String) : List Record :=
  soup.literalPath.enum.filterMap (fun ie =>
    let pt := if ie.2.textContent = "" then "" else pyStrip ie.2.textContent
    if pt ≠ "" then
      some { name := pyCapitalize q ++ " " ++ toString (ie.1 + 1),
             price := chedrauiExtractPrice (some pt), price_text := pt,
             product_url := url, query := q, source := "xpath-original",
             note := "Extracted using original XPath" }
    else none)

/-- General fallback stage (chedraui_scraper.py lines 500-538, strategy 6):
first 10 page-wide price elements; the name comes from the 5-level ancestor
walk, else defaults; on a dead-end walk the stale `name` binding of a
previous iteration is reused, and if there is none the `NameError` is caught
by the per-element handler and the element is skipped. -/
def fallbackRecord (q url nm pt : String) : Record :=
  { name := nm, price := chedrauiExtractPrice (some pt), price_text := pt,
    product_url := url, query := q, source := "fallback",
    note := "Extracted using general fallback method" }

/-- Fold of the fallback loop, threading the `name` variable binding. -/
def chedrauiFallbackStage (soup : ChedrauiSoup) (q url : String) : List Record :=
  ((soup.fallbackPrices.take 10).enum.foldl (fun acc ie =>
    let nameRes : Option String :=
      match ie.2.walk with
      | NameWalk.found n => some n
      | NameWalk.exhausted => some (pyCapitalize q ++ " " ++ toString (ie.1 + 1))
      | NameWalk.deadEnd => acc.2
    match nameRes with
    | none => (acc.1, acc.2)
    | some nm => (acc.1 ++ [fallbackRecord q url nm ie.2.priceText], some nm))
    (([], none) : List Record × Option String)).1

/-- Model of `ChedrauiScraper._extract_products`: the four stages run in
order, each only when every previous stage left `products` empty. -/
def chedrauiExtractProducts (soup : ChedrauiSoup) (q : String) (url : String) :
    List Record :=
  let p1 := chedrauiSelectorStage soup q
  if p1 ≠ [] then p1
  else
    let p2 := chedrauiXpathStage soup q
    if p2 ≠ [] then p2
    else
      let p3 := chedrauiOrigXpathStage soup q url
      if p3 ≠ [] then p3
      else chedrauiFallbackStage soup q url

/-- Stage identifiers of `_extract_products`, for instrumentation. -/
inductive CStage
  | selector
  | xpathContains
  | xpathOriginal
  | fallback
deriving DecidableEq, Repr

/-- Instrumented `_extract_products`: also returns which stages ran. -/
def chedrauiExtractProductsTr (soup : ChedrauiSoup) (q : String) (url : String) :
    List Record × List CStage :=
  let p1 := chedrauiSelectorStage soup q
  if p1 ≠ [] then (p1, [CStage.selector])
  else
    let p2 := chedrauiXpathStage soup q
    if p2 ≠ [] then (p2, [CStage.selector, CStage.xpathContains])
    else
      let p3 := chedrauiOrigXpathStage soup q url
      if p3 ≠ [] then (p3, [CStage.selector, CStage.xpathContains, CStage.xpathOriginal])
      else (chedrauiFallbackStage soup q url,
        [CStage.selector, CStage.xpathContains, CStage.xpathOriginal, CStage.fallback])

/-! ## Result sets as insertion-ordered dictionaries

Python `dict[str, list]` is modelled as an association list in insertion
order; assigning an existing key overwrites in place, a new key is appended. -/

abbrev ResultSet : Type := List (String × List Record)

/-- Keys of the mapping, in insertion order. -/
def dictKeys (m : ResultSet) : List String := m.map Prod.fst

/-- Python `key in results`. -/
def dictHasKey (m : ResultSet) (k : String) : Bool := (dictKeys m).contains k

/-- Python `results[key]` as an optional lookup. -/
def dictGet (m : ResultSet) (k : String) : Option (List Record) :=
  (m.find? (fun kv => kv.1 == k)).map Prod.snd

/-- Python `results[key] = v`. -/
def dictSet (m : ResultSet) (k : String) (v : List Record) : ResultSet :=
  if dictHasKey m k then m.map (fun kv => if kv.1 == k then (k, v) else kv)
  else m ++ [(k, v)]

/-! ## The scrape orchestrators
(walmart_scraper.py lines 859-893, chedraui_scraper.py lines 574-608) -/

/-- Python `product_types or self.product_types`: an empty (or `None`)
argument is falsy and falls back to the instance attribute. -/
def pyOr (arg : Option (List String)) (default : List String) : List String :=
  match arg with
  | none => default
  | some l => if l.isEmpty then default else l

/-- Default product types of `WalmartScraper.__init__` (walmart_scraper.py:71). -/
def walmartDefaultTypes : List String := ["platano", "manzana", "aguacate"]

/-- Default product types of `ChedrauiScraper.__init__` (chedraui_scraper.py:59). -/
def chedrauiDefaultTypes : List String := ["aguacate", "jitomate"]

/-- Constructor handling `product_types or ["platano", "manzana", "aguacate"]`:
the value stored in `self.product_types`. -/
def walmartInitTypes (ctorArg : Option (List String)) : List String :=
  pyOr ctorArg walmartDefaultTypes

/-- Constructor handling `product_types or ["aguacate", "jitomate"]`. -/
def chedrauiInitTypes (ctorArg : Option (List String)) : List String :=
  pyOr ctorArg chedrauiDefaultTypes

/-- Model of `WalmartScraper.scrape`: resolve `product_types or
self.product_types` and store `search_product`'s list under each term.
`selfTypes` is the constructor-configured `self.product_types`. -/
def walmartScrape (S : WalmartStrategies) (useApi : Bool) (selfTypes : List String)
    (productTypes : Option (List String)) : ResultSet :=
  let searchTerms := pyOr productTypes selfTypes
  searchTerms.foldl
    (fun results term => dictSet results term (walmartSearchProduct S useApi term)) []

/-- Loop of `ChedrauiScraper.scrape`: `results[term] = search_product(term)`
term by term; an exception from `search_product` aborts the loop and
propagates. -/
def chedrauiScrapeGo {Page : Type} (env : ChedrauiEnv Page) (useApi : Bool) :
    List String → ResultSet → Except String ResultSet
  | [], results => Except.ok results
  | term :: rest, results =>
    match chedrauiSearchProduct env useApi term with
    | Except.error e => Except.error e
    | Except.ok ps => chedrauiScrapeGo env useApi rest (dictSet results term ps)

/-- Model of `ChedrauiScraper.scrape`: as `walmartScrape`, but
`search_product` may raise (transport failure in the HTML fallback), in which
case `scrape` propagates the exception. -/
def chedrauiScrape {Page : Type} (env : ChedrauiEnv Page) (useApi : Bool)
    (selfTypes : List String) (productTypes : Option (List String)) :
    Except String ResultSet :=
  chedrauiScrapeGo env useApi (pyOr productTypes selfTypes) []

/-! ## The merge layer
(run_chedraui_scraper.py lines 111-125, run_walmart_scraper.py lines 114-128;
the two scripts contain the identical combination loop) -/

/-- Per-term merge of `main` with `--method both`: every secondary (HTML)
record first gets `product['source'] = 'html'`; then a record is appended
unless its `product_id` is truthy and occurs in
`set(p.get('product_id', '') for p in results[product_type])`. -/
def mergeTerm (primary secondary : List Record) : List Record :=
  let tagged := setSource "html" secondary
  let existingIds := primary.map (fun p => p.product_id)
  primary ++ tagged.filter
    (fun p => !pyTruthy p.product_id || !existingIds.contains p.product_id)

/-- Whole-mapping merge of `main`: terms already present are merged per
`mergeTerm`; a term only in the secondary set keeps its records unchanged
(`results[product_type] = products`, without the source retag). -/
def mergeResults (results : ResultSet) : ResultSet → ResultSet
  | [] => results
  | kv :: rest =>
    mergeResults
      (if dictHasKey results kv.1 then
        results.map (fun r => if r.1 == kv.1 then (r.1, mergeTerm r.2 kv.2) else r)
      else results ++ [kv]) rest

/-- Merge of one term's records as the specification words it: a secondary
record is skipped exactly when it carries a non-empty product identifier
already among the primary identifiers for the term; all others are appended
(tagged with their originating strategy). -/
def mergeTermSpec (primary secondary : List Record) : List Record :=
  primary ++ (setSource "html" secondary).filter
    (fun p => !(p.product_id ≠ "" && (primary.map Record.product_id).contains p.product_id))

/-! ## Python `str()` of a float value

Needed to state idempotence of the price parser
(`parse_price(str(parse_price(x)))`).  Every value `parse_price` produces is
a non-negative rational with terminating decimal expansion.  Python renders
a float as a plain decimal `<integer part>.<fraction digits>` — no trailing
zero in the fraction, `".0"` for integral values — only when the value is
`0.0` or lies in `[10⁻⁴, 10¹⁶)`; outside that range `str()` switches to
scientific notation (`str(0.00001) = '1e-05'`, `str(1e16) = '1e+16'`), and
for values at or above `10¹⁶` the printed mantissa is additionally rounded
to double precision.  The renderer below models ONLY the plain-decimal
regime: `decExp` finds the least exponent `k` with `den ∣ 10 ^ k`, so the
last fraction digit is non-zero whenever `k > 0`, which is the exact string
Python prints for a value in that regime whose decimal numeral has at most
15 significant digits (the 15-digit decimal→double→decimal round-trip
guarantee makes Python's shortest-repr reproduce the minimal form of the
numeral; with more digits, double rounding can change the printed string).
The idempotence theorem therefore restricts its domain to inputs whose
cleaned numeral has at most 15 characters and whose value is zero or at
least `10⁻⁴`; outside that domain the rendering model is not faithful and
the real program can fail idempotence (e.g. `'0.00001'` → `'1e-05'` →
re-parse strips `e-` → `105.0`). -/

/-- Big-endian decimal digit characters of `n`, by fuel-bounded recursion
(any `fuel > n` is enough). -/
def natStrAux : Nat → Nat → List Char
  | 0, _ => []
  | fuel + 1, n =>
    if n < 10 then [Char.ofNat (48 + n)]
    else natStrAux fuel (n / 10) ++ [Char.ofNat (48 + n % 10)]

/-- Decimal digit string of a natural number (`"0"` for zero). -/
def natStr (n : Nat) : List Char := natStrAux (n + 1) n

/-- Least `k ≤ den` with `den ∣ 10 ^ k`, `0` when there is none. -/
def decExp (den : Nat) : Nat :=
  ((List.range (den + 1)).find? (fun k => 10 ^ k % den == 0)).getD 0

/-- Python `str()` of a non-negative float whose value has a terminating
decimal expansion, faithful on the plain-decimal regime (value `0` or in
`[10⁻⁴, 10¹⁶)`, at most 15 significant digits); Python uses scientific
notation outside it, which this renderer does not model. -/
def pyFloatStr (q : ℚ) : String :=
  let k := decExp q.den
  let t := 10 ^ k / q.den
  let m := q.num.toNat * t
  let fd := natStr (m % 10 ^ k)
  ⟨natStr (m / 10 ^ k) ++ '.' :: (List.replicate (k - fd.length) '0' ++ fd)⟩

/-! ## Concrete instances used by counterexamples and witnesses -/

/-- Sample record as `extract_products_from_search_page` builds it: that
function tags every record `search-page-json` (walmart_scraper.py:493) or
`search-page-html` (walmart_scraper.py:602). -/
def pageRecord : Record :=
  { name := "Platano Chiapas", price_text := "$36.90/kg",
    product_id := "00750101530", query := "platano", source := "search-page-json" }

/-- Walmart strategy environment realising the claimed scenario: strategies
1 and 2 return `[]`, strategy 3 returns one record, strategy 4 returns one
record (so that invoking it would be observable). -/
def oneHitStrategies : WalmartStrategies where
  directApi := fun _ => []
  graphqlOnly := fun _ => []
  searchPage := fun _ => [pageRecord]
  htmlScrape := fun _ => [{ name := "Platano HTML", source := "html" }]

/-- Walmart strategy environment where every strategy returns `[]`. -/
def allEmptyStrategies : WalmartStrategies where
  directApi := fun _ => []
  graphqlOnly := fun _ => []
  searchPage := fun _ => []
  htmlScrape := fun _ => []

/-- Chedraui environment whose API strategy body raises and whose page fetch
fails with a transport error. -/
def failFetchEnv : ChedrauiEnv Unit where
  apiBody := fun _ => Except.ok []
  fetchPage := fun _ => Except.error "ConnectionError"
  extract := fun _ _ _ => []

/-- Chedraui environment whose API strategy body raises but whose page fetch
succeeds, extraction finding nothing. -/
def apiRaisesEnv : ChedrauiEnv Unit where
  apiBody := fun _ => Except.error "JSONDecodeError"
  fetchPage := fun _ => Except.ok ()
  extract := fun _ _ _ => []

/-- Record returned by the successful API strategy of `apiHitEnv`. -/
def apiRecord : Record :=
  { name := "Aguacate Hass", product_id := "12345", query := "aguacate", source := "api" }

/-- Chedraui environment whose API strategy succeeds with one record. -/
def apiHitEnv : ChedrauiEnv Unit where
  apiBody := fun _ => Except.ok [apiRecord]
  fetchPage := fun _ => Except.error "ConnectionError"
  extract := fun _ _ _ => []

/-- Walmart strategy bodies that all raise. -/
def failingBodies : WalmartBodies where
  directApiBody := fun _ => Except.error "403 Forbidden"
  graphqlBody := fun _ => Except.error "412 Precondition Failed"
  searchPageBody := fun _ => Except.error "JSONDecodeError"
  htmlBody := fun _ => Except.error "Timeout"

/-- Records of the merge example: primary holds A (id "1"); secondary holds
B (duplicate id "1"), C (new id "2") and D (no id). -/
def recA : Record := { product_id := "1", name := "A" }

def recB : Record := { product_id := "1", name := "B" }

def recC : Record := { product_id := "2", name := "C" }

def recD : Record := { product_id := "", name := "D" }

/-- Bare XPath element whose own text content is a price string. -/
def bareXElem : XElem :=
  { priceText := none, nameText := none, imageSrc := "", linkHref := "",
    textContent := "$10.50" }

/-- Chedraui page on which the CSS-selector stage finds nothing and the
literal structural path matches 11 elements with non-empty text. -/
def elevenHitSoup : ChedrauiSoup where
  galleryChedrauimx := []
  galleryVtex := []
  containerVtex := []
  literalPath := List.replicate 11 bareXElem
  containsGalleryItem := []
  containsContainer := []
  containsElement := []
  fallbackPrices := []

/-- CSS-selector element with a name, as the selector stage resolves it. -/
def namedSElem : SElem :=
  { name := "Aguacate Hass", priceText := "$45.00", imageSrc := "",
    linkHref := "/aguacate-hass-765/p" }

/-- Chedraui page on which the CSS-selector stage succeeds with one element
while the literal XPath query would also match elements. -/
def selectorHitSoup : ChedrauiSoup where
  galleryChedrauimx := [namedSElem]
  galleryVtex := []
  containerVtex := []
  literalPath := List.replicate 3 bareXElem
  containsGalleryItem := []
  containsContainer := []
  containsElement := []
  fallbackPrices := []

end Scrapper


namespace Scrapper

/-! ## Claim C1: the per-term strategy chain -/

/-- C1, counterexample to the claim as stated: with strategies 1-2 empty and
strategy 3 returning one record, the Walmart chain's output does not equal
strategy 3's output exactly — `search_product` overwrites the record's
`source` tag `"search-page-json"` (set at walmart_scraper.py:493) with
`"search-page"` (walmart_scraper.py:794). -/
theorem chain_output_retagged :
    walmartSearchProduct oneHitStrategies true "platano" ≠
      oneHitStrategies.searchPage "platano" ∧
    walmartSearchProduct oneHitStrategies true "platano" =
      setSource "search-page" (oneHitStrategies.searchPage "platano") :=
  ⟨by decide, by decide⟩

/-- C1 (amended): the strategies are attempted in priority order and the
chain stops at the first strategy yielding a non-empty list: its output is
that strategy's record list — with each record's `source` overwritten by the
chain-level tag in the Walmart chain, and exactly in the Chedraui chain — no
later strategy is invoked, and exhaustion of all strategies returns `[]`
rather than an error. -/
theorem chain_first_success (S : WalmartStrategies) (q : String)
    {Page : Type} (env : ChedrauiEnv Page) :
    (S.directApi q = [] → S.graphqlOnly q = [] → S.searchPage q ≠ [] →
      walmartSearchProduct S true q = setSource "search-page" (S.searchPage q) ∧
      WStrat.html ∉ (walmartSearchProductTr S true q).2) ∧
    (S.directApi q ≠ [] →
      walmartSearchProduct S true q = setSource "api-direct" (S.directApi q) ∧
      (walmartSearchProductTr S true q).2 = [WStrat.direct]) ∧
    (S.directApi q = [] → S.graphqlOnly q = [] → S.searchPage q = [] →
      S.htmlScrape q = [] → walmartSearchProduct S true q = []) ∧
    (walmartSearchProductTr S true q).1 = walmartSearchProduct S true q ∧
    (chedrauiSearchProductApi env q ≠ [] →
      chedrauiSearchProduct env true q =
        Except.ok (chedrauiSearchProductApi env q)) ∧
    (chedrauiSearchProductApi env q = [] →
      ∀ page, env.fetchPage (chedrauiSearchUrl q) = Except.ok page →
        chedrauiSearchProduct env true q =
          Except.ok (env.extract page q (chedrauiSearchUrl q))) := by
  refine ⟨?_, ?_, ?_, ?_, ?_, ?_⟩
  · intro h1 h2 h3
    constructor
    · simp [walmartSearchProduct, walmartGraphqlApi, h1, h2, h3]
    · simp [walmartSearchProductTr, walmartGraphqlApi, h1, h2, h3]
  · intro h1
    constructor
    · simp [walmartSearchProduct, h1]
    · simp [walmartSearchProductTr, h1]
  · intro h1 h2 h3 h4
    simp [walmartSearchProduct, walmartGraphqlApi, h1, h2, h3, h4]
  · simp only [walmartSearchProductTr, walmartSearchProduct]
    split_ifs <;> rfl
  · intro h1
    rw [chedrauiSearchProduct, if_pos ⟨rfl, h1⟩]
  · intro h1 page h2
    rw [chedrauiSearchProduct, if_neg (by simp [h1]), h2]

/-- C1, witness: the claimed scenario realised on concrete strategy
environments. -/
theorem chain_first_success_witness :
    (walmartSearchProduct oneHitStrategies true "platano" =
      setSource "search-page" (oneHitStrategies.searchPage "platano") ∧
     WStrat.html ∉ (walmartSearchProductTr oneHitStrategies true "platano").2) ∧
    chedrauiSearchProduct apiHitEnv true "aguacate" =
      Except.ok (chedrauiSearchProductApi apiHitEnv "aguacate") :=
  ⟨(chain_first_success oneHitStrategies "platano" apiHitEnv).1
      (by decide) (by decide) (by decide),
   (chain_first_success oneHitStrategies "aguacate" apiHitEnv).2.2.2.2.1 (by decide)⟩

/-! ## Claim C2: exception containment at strategy boundaries -/

/-- C2, counterexample to the claim as stated: a transport failure inside
Chedraui's HTML-scraping strategy is not treated as zero records — it
propagates out of `search_product`, because `BaseScraper.get_page` re-raises
(base_scraper.py:55) and `ChedrauiScraper.search_product` calls it outside
any handler (chedraui_scraper.py:276). -/
theorem transport_failure_propagates :
    chedrauiSearchProduct failFetchEnv true "aguacate" =
      Except.error "ConnectionError" := rfl

/-- C2 (amended): exceptions raised inside each Walmart strategy and inside
Chedraui's API strategy are caught at the strategy boundary and treated as
zero records, and Walmart's `search_product` never propagates an exception;
a transport failure in Chedraui's HTML-scraping fallback, however, is
re-raised by `get_page` and propagates out of `search_product`. -/
theorem strategy_exceptions_caught (B : WalmartBodies) (useApi : Bool) (q : String)
    {Page : Type} (env : ChedrauiEnv Page) :
    (∃ ps, walmartSearchProductE B useApi q = Except.ok ps) ∧
    (∀ e, B.directApiBody q = Except.error e →
      (walmartStrategiesOf B).directApi q = []) ∧
    (∀ e, B.htmlBody q = Except.error e →
      (walmartStrategiesOf B).htmlScrape q = []) ∧
    (∀ e, env.apiBody q = Except.error e → chedrauiSearchProductApi env q = []) ∧
    (∀ e page, env.apiBody q = Except.error e →
      env.fetchPage (chedrauiSearchUrl q) = Except.ok page →
      chedrauiSearchProduct env true q =
        Except.ok (env.extract page q (chedrauiSearchUrl q))) := by
  refine ⟨⟨_, rfl⟩, ?_, ?_, ?_, ?_⟩
  · intro e he
    simp [walmartStrategiesOf, walmartCatch, he]
  · intro e he
    simp [walmartStrategiesOf, walmartCatch, he]
  · intro e he
    simp [chedrauiSearchProductApi, he]
  · intro e page he hp
    rw [chedrauiSearchProduct, if_neg (by simp [chedrauiSearchProductApi, he]), hp]

/-- C2, witness: Walmart resolution over all-raising strategy bodies still
returns a value, and a raising Chedraui API strategy is treated as empty. -/
theorem strategy_exceptions_caught_witness :
    walmartSearchProductE failingBodies true "manzana" = Except.ok [] ∧
    (walmartStrategiesOf failingBodies).directApi "manzana" = [] ∧
    chedrauiSearchProductApi apiRaisesEnv "jitomate" = [] ∧
    chedrauiSearchProduct apiRaisesEnv true "jitomate" =
      Except.ok (apiRaisesEnv.extract () "jitomate" (chedrauiSearchUrl "jitomate")) :=
  ⟨by rfl,
   (strategy_exceptions_caught failingBodies true "manzana" apiRaisesEnv).2.1
     "403 Forbidden" (by rfl),
   (strategy_exceptions_caught failingBodies true "jitomate" apiRaisesEnv).2.2.2.1
     "JSONDecodeError" (by rfl),
   (strategy_exceptions_caught failingBodies true "jitomate" apiRaisesEnv).2.2.2.2
     "JSONDecodeError" () (by rfl) (by rfl)⟩

end Scrapper

namespace Scrapper

/-! ## Claim C3: the result set has a key for every requested term -/

theorem keys_dictSet_of_hasKey (m : ResultSet) (k : String) (v : List Record)
    (hk : dictHasKey m k = true) :
    (dictSet m k v).map Prod.fst = m.map Prod.fst := by
  rw [dictSet, if_pos hk, List.map_map]
  refine List.map_congr_left ?_
  intro kv _
  by_cases he : kv.1 == k
  · have h1 : kv.1 = k := by simpa using he
    simp [he, h1]
  · have h2 : ¬ (kv.1 = k) := by simpa using he
    simp [he, h2]

theorem mem_keys_dictSet (m : ResultSet) (k : String) (v : List Record) (t : String) :
    t ∈ (dictSet m k v).map Prod.fst ↔ (t ∈ m.map Prod.fst ∨ t = k) := by
  by_cases hk : dictHasKey m k = true
  · rw [keys_dictSet_of_hasKey m k v hk]
    constructor
    · exact Or.inl
    · intro ht
      rcases ht with ht | ht
      · exact ht
      · subst ht
        simpa [dictHasKey, dictKeys] using hk
  · rw [dictSet, if_neg hk]
    simp

theorem dictHasKey_fold (f : String → List Record) (terms : List String)
    (init : ResultSet) (t : String) (h : t ∈ terms ∨ dictHasKey init t = true) :
    dictHasKey (terms.foldl (fun res term => dictSet res term (f term)) init) t = true := by
  induction terms generalizing init with
  | nil =>
    rcases h with h | h
    · cases h
    · exact h
  | cons a rest ih =>
    rw [List.foldl_cons]
    apply ih
    rcases h with h | h
    · rcases List.mem_cons.mp h with h | h
      · right
        simp only [dictHasKey, dictKeys]
        simpa using (mem_keys_dictSet init a (f a) t).mpr (Or.inr h)
      · left
        exact h
    · right
      simp only [dictHasKey, dictKeys]
      have ht : t ∈ init.map Prod.fst := by simpa [dictHasKey, dictKeys] using h
      simpa using (mem_keys_dictSet init a (f a) t).mpr (Or.inl ht)

theorem dictHasKey_scrapeGo {Page : Type} (env : ChedrauiEnv Page) (useApi : Bool)
    (terms : List String) (init : ResultSet) (t : String) (m : ResultSet)
    (hm : chedrauiScrapeGo env useApi terms init = Except.ok m)
    (h : t ∈ terms ∨ dictHasKey init t = true) : dictHasKey m t = true := by
  induction terms generalizing init with
  | nil =>
    rw [chedrauiScrapeGo] at hm
    cases hm
    rcases h with h | h
    · cases h
    · exact h
  | cons a rest ih =>
    rw [chedrauiScrapeGo] at hm
    cases hg : chedrauiSearchProduct env useApi a with
    | error e =>
      rw [hg] at hm
      cases hm
    | ok ps =>
      rw [hg] at hm
      refine ih (dictSet init a ps) hm ?_
      rcases h with h | h
      · rcases List.mem_cons.mp h with h | h
        · right
          simp only [dictHasKey, dictKeys]
          simpa using (mem_keys_dictSet init a ps t).mpr (Or.inr h)
        · left
          exact h
      · right
        simp only [dictHasKey, dictKeys]
        have ht : t ∈ init.map Prod.fst := by simpa [dictHasKey, dictKeys] using h
        simpa using (mem_keys_dictSet init a ps t).mpr (Or.inl ht)

/-- C3: for a non-empty requested term list, the mapping `scrape` returns has
a key for every requested term — an empty record list, never a missing key,
when every strategy failed (for Chedraui, whenever `scrape` returns at all,
see C2). -/
theorem resolve_has_all_keys (S : WalmartStrategies) (useApi : Bool)
    (selfTypes terms : List String) (hne : terms ≠ []) (t : String) (ht : t ∈ terms)
    {Page : Type} (env : ChedrauiEnv Page) :
    dictHasKey (walmartScrape S useApi selfTypes (some terms)) t = true ∧
    (∀ m, chedrauiScrape env useApi selfTypes (some terms) = Except.ok m →
      dictHasKey m t = true) := by
  have hempty : terms.isEmpty = false := by
    cases terms with
    | nil => exact absurd rfl hne
    | cons a rest => rfl
  have hterms : pyOr (some terms) selfTypes = terms := by
    rw [pyOr, hempty]
    rfl
  constructor
  · rw [walmartScrape, hterms]
    exact dictHasKey_fold _ terms [] t (Or.inl ht)
  · intro m hm
    rw [chedrauiScrape, hterms] at hm
    exact dictHasKey_scrapeGo env useApi terms [] t m hm (Or.inl ht)

/-- C3, witness: `resolve(["a","b"])` contains keys `"a"` and `"b"` on
concrete environments, also when every Walmart strategy fails. -/
theorem resolve_has_all_keys_witness :
    dictHasKey (walmartScrape allEmptyStrategies true [] (some ["a", "b"])) "a" = true ∧
    dictHasKey (walmartScrape allEmptyStrategies true [] (some ["a", "b"])) "b" = true ∧
    dictHasKey [("a", [apiRecord]), ("b", [apiRecord])] "a" = true :=
  ⟨(resolve_has_all_keys allEmptyStrategies true [] ["a", "b"] (by decide) "a"
      (by decide) apiHitEnv).1,
   (resolve_has_all_keys allEmptyStrategies true [] ["a", "b"] (by decide) "b"
      (by decide) apiHitEnv).1,
   (resolve_has_all_keys allEmptyStrategies true [] ["a", "b"] (by decide) "a"
      (by decide) apiHitEnv).2 [("a", [apiRecord]), ("b", [apiRecord])] rfl⟩

end Scrapper

namespace Scrapper

/-! ## Claim C4: merge and dedup policy -/

theorem strBeq_comm (a b : String) : (a == b) = (b == a) := by
  by_cases h : a = b
  · simp [h]
  · simp [h, Ne.symm h]

theorem pyTruthy_eq_decide (s : String) : pyTruthy s = decide (s ≠ "") := by
  rw [pyTruthy]
  rcases s with ⟨data⟩
  cases data with
  | nil => rfl
  | cons c cs => simp [String.ext_iff]

theorem mergeTerm_eq_spec (primary secondary : List Record) :
    mergeTerm primary secondary = mergeTermSpec primary secondary := by
  rw [mergeTerm, mergeTermSpec]
  congr 1
  refine List.filter_congr ?_
  intro p _
  rw [pyTruthy_eq_decide, Bool.not_and]

theorem dictGet_cons_self (kv : String × List Record) (rest : ResultSet) :
    dictGet (kv :: rest) kv.1 = some kv.2 := by
  rw [dictGet, List.find?_cons]
  simp

theorem dictGet_cons_ne (kv : String × List Record) (rest : ResultSet) (k : String)
    (h : ¬ (kv.1 = k)) : dictGet (kv :: rest) k = dictGet rest k := by
  rw [dictGet, List.find?_cons]
  have h1 : ¬ (kv.1 == k) = true := by simpa using h
  simp only [h1, if_false]
  rfl

theorem dictGet_map_update_ne (res : ResultSet) (k0 : String)
    (u : String × List Record → List Record) (k : String) (h : ¬ (k0 = k)) :
    dictGet (res.map (fun r => if r.1 == k0 then (r.1, u r) else r)) k =
      dictGet res k := by
  induction res with
  | nil => rfl
  | cons r rs ih =>
    rw [List.map_cons]
    by_cases h1 : (r.1 == k0) = true
    · have hr : r.1 = k0 := by simpa using h1
      have h2 : ¬ (r.1 = k) := by
        rw [hr]
        exact h
      rw [if_pos h1, dictGet_cons_ne (r.1, u r) _ k h2, dictGet_cons_ne r _ k h2]
      exact ih
    · rw [if_neg h1]
      by_cases h2 : r.1 = k
      · rw [← h2, dictGet_cons_self, dictGet_cons_self]
      · rw [dictGet_cons_ne r _ k h2, dictGet_cons_ne r _ k h2]
        exact ih

theorem dictHasKey_map_update (res : ResultSet) (k0 : String)
    (u : String × List Record → List Record) (k : String) :
    dictHasKey (res.map (fun r => if r.1 == k0 then (r.1, u r) else r)) k =
      dictHasKey res k := by
  simp only [dictHasKey, dictKeys, List.map_map]
  congr 1
  refine List.map_congr_left ?_
  intro r _
  simp only [Function.comp_apply]
  by_cases h1 : (r.1 == k0) = true
  · rw [if_pos h1]
  · rw [if_neg h1]

theorem dictGet_none_of_not_hasKey (res : ResultSet) (k : String)
    (h : dictHasKey res k = false) : dictGet res k = none := by
  induction res with
  | nil => rfl
  | cons r rs ih =>
    simp only [dictHasKey, dictKeys, List.map_cons, List.contains_cons,
      Bool.or_eq_false_iff] at h
    have hne : ¬ (r.1 = k) := by
      intro he
      rw [he] at h
      simp at h
    rw [dictGet_cons_ne _ _ _ hne]
    exact ih h.2

theorem dictGet_append_one (res : ResultSet) (kv : String × List Record) (k : String)
    (h : dictHasKey res k = false) :
    dictGet (res ++ [kv]) k = (if kv.1 == k then some kv.2 else none) := by
  induction res with
  | nil =>
    rw [List.nil_append]
    by_cases h1 : kv.1 = k
    · rw [← h1, dictGet_cons_self]
      simp
    · rw [dictGet_cons_ne _ _ _ h1]
      have h2 : ¬ (kv.1 == k) = true := by simpa using h1
      simp [h2, dictGet]
  | cons r rs ih =>
    simp only [dictHasKey, dictKeys, List.map_cons, List.contains_cons,
      Bool.or_eq_false_iff] at h
    have hne : ¬ (r.1 = k) := by
      intro he
      rw [he] at h
      simp at h
    rw [List.cons_append, dictGet_cons_ne _ _ _ hne]
    exact ih h.2

theorem dictGet_append_one_ne (res : ResultSet) (kv : String × List Record) (k : String)
    (h : ¬ (kv.1 = k)) : dictGet (res ++ [kv]) k = dictGet res k := by
  induction res with
  | nil =>
    rw [List.nil_append, dictGet_cons_ne _ _ _ h]
  | cons r rs ih =>
    by_cases h2 : r.1 = k
    · rw [List.cons_append, ← h2, dictGet_cons_self, dictGet_cons_self]
    · rw [List.cons_append, dictGet_cons_ne r _ k h2, dictGet_cons_ne r _ k h2]
      exact ih

theorem dictHasKey_append_one (res : ResultSet) (kv : String × List Record) (k : String) :
    dictHasKey (res ++ [kv]) k = (dictHasKey res k || kv.1 == k) := by
  induction res with
  | nil =>
    simp only [List.nil_append, dictHasKey, dictKeys, List.map_cons, List.map_nil,
      List.contains_cons]
    rw [strBeq_comm k kv.1]
    simp
  | cons r rs ih =>
    simp only [List.cons_append, dictHasKey, dictKeys, List.map_cons,
      List.contains_cons] at ih ⊢
    rw [ih, Bool.or_assoc]

theorem dictGet_mergeResults_of_not_mem (res htmlData : ResultSet) (k : String)
    (h : k ∉ htmlData.map Prod.fst) :
    dictGet (mergeResults res htmlData) k = dictGet res k := by
  induction htmlData generalizing res with
  | nil => rfl
  | cons kv rest ih =>
    have hne : ¬ (kv.1 = k) := by
      intro he
      exact h (he ▸ List.mem_map.mpr ⟨kv, List.mem_cons_self kv rest, rfl⟩)
    rw [mergeResults]
    rw [ih _ (fun hm => h (List.mem_cons_of_mem _ hm))]
    by_cases hk : dictHasKey res kv.1
    · rw [if_pos hk]
      exact dictGet_map_update_ne res kv.1 _ k hne
    · rw [if_neg hk]
      exact dictGet_append_one_ne res kv k hne

end Scrapper

namespace Scrapper

/-- C4: the merge of a secondary (HTML) result set into a primary one: the
per-term merge equals the specification's merge — a secondary record is
skipped exactly when it carries a non-empty product identifier already among
the primary identifiers for that term, records with empty identifier always
appended — a term present only in the secondary set keeps its records
unchanged, and the claimed example merges to exactly the records A, C, D
(the appended ones retagged `source = "html"` by the loop at
run_chedraui_scraper.py:116). -/
theorem merge_dedup_policy (primary secondary : List Record)
    (results htmlData : ResultSet) (k : String)
    (hk : dictHasKey results k = false) (hnd : (htmlData.map Prod.fst).Nodup) :
    mergeTerm primary secondary = mergeTermSpec primary secondary ∧
    dictGet (mergeResults results htmlData) k = dictGet htmlData k ∧
    mergeResults [("x", [recA])] [("x", [recB, recC, recD])] =
      [("x", [recA, { recC with source := "html" }, { recD with source := "html" }])] := by
  refine ⟨mergeTerm_eq_spec primary secondary, ?_, by decide⟩
  induction htmlData generalizing results with
  | nil =>
    rw [mergeResults, dictGet_none_of_not_hasKey results k hk]
    rfl
  | cons kv rest ih =>
    rw [mergeResults]
    by_cases he : kv.1 = k
    · subst he
      have hnd' : kv.1 ∉ rest.map Prod.fst ∧ (rest.map Prod.fst).Nodup := by
        rw [List.map_cons, List.nodup_cons] at hnd
        exact hnd
      rw [if_neg (by simp [hk])]
      rw [dictGet_mergeResults_of_not_mem _ rest kv.1 hnd'.1]
      rw [dictGet_append_one results kv kv.1 hk, dictGet_cons_self]
      simp
    · have hnd' : (rest.map Prod.fst).Nodup := by
        rw [List.map_cons, List.nodup_cons] at hnd
        exact hnd.2
      rw [dictGet_cons_ne kv rest k he]
      by_cases hk2 : dictHasKey results kv.1
      · rw [if_pos hk2]
        refine ih _ ?_ hnd'
        rw [dictHasKey_map_update]
        exact hk
      · rw [if_neg hk2]
        refine ih _ ?_ hnd'
        rw [dictHasKey_append_one, hk]
        simpa using he

/-- C4, witness: the secondary-only adoption at concrete inputs. -/
theorem merge_dedup_policy_witness :
    dictHasKey [("y", [recA])] "x" = false ∧
    ([("x", [recC])].map (Prod.fst (α := String) (β := List Record))).Nodup ∧
    dictGet (mergeResults [("y", [recA])] [("x", [recC])]) "x" =
      dictGet [("x", [recC])] "x" :=
  ⟨by decide, by decide,
   (merge_dedup_policy [] [] [("y", [recA])] [("x", [recC])] "x"
      (by decide) (by decide)).2.1⟩

end Scrapper

namespace Scrapper

/-! ## Claim C9: the structural-path (XPath) extraction -/

/-- C9, counterexample to the claim as stated: with the selector stage empty
and the literal structural path matching 11 elements, the structural-path
extraction produces 11 records — the 10-element bound applies only to the
"contains class" paths (`elements[:10]`, chedraui_scraper.py:417), not to the
literal path, whose elements are processed by the original-XPath block with
no bound (chedraui_scraper.py:476). -/
theorem literal_xpath_unbounded :
    chedrauiSelectorStage elevenHitSoup "aguacate" = [] ∧
    (chedrauiExtractProducts elevenHitSoup "aguacate" "").length = 11 :=
  ⟨by decide, by decide⟩

/-- C9 (amended): the structural-path extraction runs only when the
selector-based strategy yielded zero records; the literal previously-observed
structural path is tried first and, when it matches, the semantic "contains
class" paths contribute nothing; each "contains class" path collects at most
10 elements, while the literal path is processed without that bound. -/
theorem xpath_stage_policy (soup : ChedrauiSoup) (q url : String) :
    (chedrauiSelectorStage soup q ≠ [] →
      chedrauiExtractProducts soup q url = chedrauiSelectorStage soup q ∧
      (chedrauiExtractProductsTr soup q url).2 = [CStage.selector]) ∧
    (soup.literalPath ≠ [] → chedrauiXpathStage soup q = []) ∧
    (∀ xp elems, (xpathPathRecords q xp elems).length ≤ 10) ∧
    (chedrauiExtractProductsTr soup q url).1 = chedrauiExtractProducts soup q url := by
  refine ⟨?_, ?_, ?_, ?_⟩
  · intro h
    constructor
    · simp [chedrauiExtractProducts, h]
    · simp [chedrauiExtractProductsTr, h]
  · intro h
    simp [chedrauiXpathStage, h]
  · intro xp elems
    calc (xpathPathRecords q xp elems).length
        ≤ (elems.take 10).enum.length := List.length_filterMap_le _ _
      _ = (elems.take 10).length := List.enum_length
      _ ≤ 10 := by
          rw [List.length_take]
          exact min_le_left 10 elems.length
  · simp only [chedrauiExtractProductsTr, chedrauiExtractProducts]
    split_ifs <;> rfl

/-- C9, witness: a page where the selector stage succeeds, so the XPath
stages never run even though the literal path would match. -/
theorem xpath_stage_policy_witness :
    chedrauiSelectorStage selectorHitSoup "aguacate" ≠ [] ∧
    (chedrauiExtractProducts selectorHitSoup "aguacate" "" =
      chedrauiSelectorStage selectorHitSoup "aguacate" ∧
     (chedrauiExtractProductsTr selectorHitSoup "aguacate" "").2 = [CStage.selector]) :=
  ⟨by decide, (xpath_stage_policy selectorHitSoup "aguacate" "").1 (by decide)⟩

/-! ## Claim C10: empty requested term list falls back to the defaults -/

/-- C10: `scrape([])` does not resolve the empty set — Python's falsy `[]`
makes `product_types or self.product_types` substitute the
constructor-configured defaults, so the returned mapping is keyed by them. -/
theorem empty_terms_fall_back (S : WalmartStrategies) (useApi : Bool)
    {Page : Type} (env : ChedrauiEnv Page) :
    dictKeys (walmartScrape S useApi (walmartInitTypes none) (some [])) =
      walmartDefaultTypes ∧
    walmartScrape S useApi (walmartInitTypes none) (some []) ≠ [] ∧
    (∀ m, chedrauiScrape env useApi (chedrauiInitTypes none) (some []) = Except.ok m →
      dictKeys m = chedrauiDefaultTypes) := by
  have h1 : walmartScrape S useApi (walmartInitTypes none) (some []) =
      [("platano", walmartSearchProduct S useApi "platano"),
       ("manzana", walmartSearchProduct S useApi "manzana"),
       ("aguacate", walmartSearchProduct S useApi "aguacate")] := by
    simp [walmartScrape, pyOr, walmartInitTypes, walmartDefaultTypes, dictSet,
      dictHasKey, dictKeys]
  refine ⟨?_, ?_, ?_⟩
  · rw [h1]
    rfl
  · rw [h1]
    simp
  · intro m hm
    rw [chedrauiScrape] at hm
    have hterms : pyOr (some []) (chedrauiInitTypes none) = ["aguacate", "jitomate"] := rfl
    rw [hterms] at hm
    rw [chedrauiScrapeGo.eq_def] at hm
    simp only [] at hm
    cases hg1 : chedrauiSearchProduct env useApi "aguacate" with
    | error e =>
      rw [hg1] at hm
      cases hm
    | ok ps1 =>
      rw [hg1] at hm
      simp only [] at hm
      rw [chedrauiScrapeGo.eq_def] at hm
      simp only [] at hm
      cases hg2 : chedrauiSearchProduct env useApi "jitomate" with
      | error e =>
        rw [hg2] at hm
        cases hm
      | ok ps2 =>
        rw [hg2] at hm
        simp only [] at hm
        rw [chedrauiScrapeGo.eq_def] at hm
        simp only [] at hm
        cases hm
        simp [dictSet, dictHasKey, dictKeys, chedrauiDefaultTypes]

/-- C10, witness: concrete environments, with every Walmart strategy failing
(values are empty lists, keys are the defaults). -/
theorem empty_terms_fall_back_witness :
    dictKeys (walmartScrape allEmptyStrategies true (walmartInitTypes none) (some [])) =
      walmartDefaultTypes ∧
    dictKeys [("aguacate", [apiRecord]), ("jitomate", [apiRecord])] =
      chedrauiDefaultTypes :=
  ⟨(empty_terms_fall_back allEmptyStrategies true apiHitEnv).1,
   (empty_terms_fall_back allEmptyStrategies true apiHitEnv).2.2
     [("aguacate", [apiRecord]), ("jitomate", [apiRecord])] rfl⟩

end Scrapper

namespace Scrapper

/-! ## Claim C5: totality of the price parsers -/

/-- C5: `extract_price` never raises: `None` and the empty string give `0.0`,
and whenever numeric conversion of the cleaned string fails the handler
returns `0.0`, for both scrapers. -/
theorem parse_price_total (s : String) :
    walmartExtractPrice none = 0 ∧ chedrauiExtractPrice none = 0 ∧
    walmartExtractPrice (some "") = 0 ∧ chedrauiExtractPrice (some "") = 0 ∧
    (parseFloat (walmartClean s.data) = none → walmartExtractPrice (some s) = 0) ∧
    (chedrauiPriceSearch s.data = none →
      parseFloat ((s.data.map (fun c => if c == ',' then '.' else c)).filter
        (fun c => c.isDigit || c == '.')) = none →
      chedrauiExtractPrice (some s) = 0) := by
  refine ⟨rfl, rfl, rfl, rfl, ?_, ?_⟩
  · intro h
    cases hb : pyTruthy s
    · simp [walmartExtractPrice, hb]
    · simp [walmartExtractPrice, hb, h]
  · intro h1 h2
    cases hb : pyTruthy s
    · simp [chedrauiExtractPrice, hb]
    · simp only [beq_iff_eq] at h2
      simp [chedrauiExtractPrice, hb, h1, h2]

/-- C5, witness: a non-numeric input string takes the failure branch of both
parsers and yields `0.0`. -/
theorem parse_price_total_witness :
    parseFloat (walmartClean "abc".data) = none ∧
    chedrauiPriceSearch "abc".data = none ∧
    walmartExtractPrice (some "abc") = 0 ∧
    chedrauiExtractPrice (some "abc") = 0 :=
  ⟨by decide, by decide,
   (parse_price_total "abc").2.2.2.2.1 (by decide),
   (parse_price_total "abc").2.2.2.2.2 (by decide) (by decide)⟩

/-! ## Claim C6: the duplicated-price rule -/

/-- C6, counterexample to the claim as stated: the cleaned form of
`"1234.561234.56"` is 14 characters long and its first half equals its second
half, yet `parse_price` returns `0.0`, not `1234.56` — the code's duplication
check compares characters 0-3 with characters 4-7
(`clean_price[:4] == clean_price[4:8]`, walmart_scraper.py:849), which fails
here, and `float()` then fails on the two decimal points. -/
theorem dup_rule_counterexample :
    (walmartSepClean "1234.561234.56".data).length = 14 ∧
    (walmartSepClean "1234.561234.56".data).take 7 =
      (walmartSepClean "1234.561234.56".data).drop 7 ∧
    walmartExtractPrice (some "1234.561234.56") = 0 ∧
    (0 : ℚ) ≠ 123456 / 100 :=
  ⟨by decide, by decide, by decide, by norm_num⟩

/-- C6 (amended): the duplication rule triggers exactly when the cleaned
string is longer than 8 characters and its first four characters equal its
next four, in which case the first half is taken; the duplicated input
`"1234.561234.56"` fails that test and `parse_price` returns `0.0`. -/
theorem dup_rule_four_chars (s : String) :
    (walmartDupCond (walmartSepClean s.data) = true →
      walmartClean s.data =
        (walmartSepClean s.data).take ((walmartSepClean s.data).length / 2)) ∧
    (walmartDupCond (walmartSepClean s.data) = false →
      walmartClean s.data = walmartSepClean s.data) ∧
    walmartExtractPrice (some "1234.561234.56") = 0 := by
  refine ⟨?_, ?_, by decide⟩
  · intro h
    rw [walmartClean, walmartDupFix, if_pos h]
  · intro h
    rw [walmartClean, walmartDupFix, if_neg (by simp [h])]

/-- C6, witness: `"123412345"` (9 characters, first four equal to next four)
does trigger the rule and is halved. -/
theorem dup_rule_four_chars_witness :
    walmartDupCond (walmartSepClean "123412345".data) = true ∧
    walmartClean "123412345".data =
      (walmartSepClean "123412345".data).take
        ((walmartSepClean "123412345".data).length / 2) ∧
    walmartExtractPrice (some "123412345") = ((1234 : ℕ) : ℚ) :=
  ⟨by decide, (dup_rule_four_chars "123412345").1 (by decide), by decide⟩

end Scrapper

namespace Scrapper

/-! ## Claim C7: marker truncation and separator disambiguation -/

theorem leadMatch_append_self (n r : List Char) : leadMatch n (n ++ r) = true := by
  induction n with
  | nil => rfl
  | cons c cs ih =>
    rw [List.cons_append, leadMatch]
    simp [ih]

theorem hasSub_middle (c : Char) (n' a b : List Char) :
    hasSub (c :: n') (a ++ ((c :: n') ++ b)) = true := by
  induction a with
  | nil =>
    rw [List.nil_append, List.cons_append, hasSub]
    simp only [Bool.or_eq_true]
    exact Or.inl (leadMatch_append_self (c :: n') b)
  | cons x xs ih =>
    rw [List.cons_append, hasSub]
    simp only [Bool.or_eq_true]
    exact Or.inr ih

theorem hasSub_eq_false (c : Char) (n' hay : List Char) (h : c ∉ hay) :
    hasSub (c :: n') hay = false := by
  induction hay with
  | nil => rfl
  | cons x xs ih =>
    have hx : (c == x) = false := by
      have hne : ¬ (c = x) := fun he => h (he ▸ List.mem_cons_self x xs)
      simpa using hne
    rw [hasSub, leadMatch, hx]
    simp only [Bool.false_and, Bool.false_or]
    exact ih (fun hm => h (List.mem_cons_of_mem x hm))

theorem splitFirst_middle (c : Char) (n' a b : List Char) (ha : c ∉ a) :
    splitFirst (c :: n') (a ++ ((c :: n') ++ b)) = a := by
  induction a with
  | nil =>
    rw [List.nil_append, List.cons_append, splitFirst]
    rw [if_pos (show leadMatch (c :: n') (c :: (n' ++ b)) = true from
      leadMatch_append_self (c :: n') b)]
  | cons x xs ih =>
    have hx : (c == x) = false := by
      have hne : ¬ (c = x) := fun he => ha (he ▸ List.mem_cons_self x xs)
      simpa using hne
    rw [List.cons_append, splitFirst]
    have hl : leadMatch (c :: n') (x :: (xs ++ c :: (n' ++ b))) = false := by
      rw [leadMatch, hx]
      simp
    rw [if_neg (by simp [hl]), ih (fun hm => ha (List.mem_cons_of_mem x hm))]

/-- Truncation helper: with no `'p'` in the part before the marker, the
marker cut returns exactly that part. -/
theorem walmartMarkerCut_middle (a b : List Char) (ha : 'p' ∉ a) :
    walmartMarkerCut (a ++ (precioMarker ++ b)) = a := by
  have hm : precioMarker = 'p' :: "recio actual".data := rfl
  rw [walmartMarkerCut, hm]
  rw [if_pos (hasSub_middle 'p' "recio actual".data a b)]
  exact splitFirst_middle 'p' "recio actual".data a b ha

theorem walmartMarkerCut_of_no_p (a : List Char) (ha : 'p' ∉ a) :
    walmartMarkerCut a = a := by
  rw [walmartMarkerCut,
    if_neg (by simp [show precioMarker = 'p' :: "recio actual".data from rfl,
      hasSub_eq_false 'p' "recio actual".data a ha])]

/-- Evaluation helper: `extract_price` on a string that cleans to
`ip ++ "." ++ fp`. -/
theorem walmartExtractPrice_eval_dot (s : String) (ip fp : List Char) (a b k : Nat)
    (hne : pyTruthy s = true)
    (hclean : walmartClean s.data = ip ++ '.' :: fp)
    (hip : ip.all Char.isDigit = true) (hfp : fp.all Char.isDigit = true)
    (hfpne : fp ≠ [])
    (ha : natOfDigits ip = a) (hb : natOfDigits fp = b) (hk : fp.length = k) :
    walmartExtractPrice (some s) = (a : ℚ) + (b : ℚ) / 10 ^ k := by
  rw [walmartExtractPrice, hne, hclean, parseFloat_dot ip fp hip hfp hfpne, ha, hb, hk]
  rfl

/-- C7: the marker truncation is applied before stripping; with both
separators present the commas are removed; with only commas present they
become decimal points; and the three claimed evaluations hold
(`36.90 = 369/10`, `1234.56 = 123456/100`, `12.5 = 125/10`). -/
theorem separator_disambiguation (a b s : String) (ha : 'p' ∉ a.data) :
    walmartExtractPrice (some (a ++ "precio actual" ++ b)) =
      walmartExtractPrice (some a) ∧
    ((walmartStrip (walmartMarkerCut s.data)).contains ',' = true →
      (walmartStrip (walmartMarkerCut s.data)).contains '.' = true →
      walmartSepClean s.data =
        (walmartStrip (walmartMarkerCut s.data)).filter (fun c => !(c == ','))) ∧
    ((walmartStrip (walmartMarkerCut s.data)).contains ',' = true →
      (walmartStrip (walmartMarkerCut s.data)).contains '.' = false →
      walmartSepClean s.data =
        (walmartStrip (walmartMarkerCut s.data)).map
          (fun c => if c == ',' then '.' else c)) ∧
    walmartExtractPrice (some "$36.90/kgprecio actual $36.90/kg") = 369 / 10 ∧
    walmartExtractPrice (some "1,234.56") = 123456 / 100 ∧
    walmartExtractPrice (some "12,50") = 125 / 10 := by
  refine ⟨?_, ?_, ?_, ?_, ?_, ?_⟩
  · have hdata : (a ++ "precio actual" ++ b).data =
        a.data ++ (precioMarker ++ b.data) := by
      rw [String.data_append, String.data_append, List.append_assoc]
      rfl
    have hcut : walmartClean (a ++ "precio actual" ++ b).data = walmartClean a.data := by
      simp only [walmartClean, walmartSepClean]
      rw [hdata, walmartMarkerCut_middle a.data b.data ha,
        walmartMarkerCut_of_no_p a.data ha]
    have hne : pyTruthy (a ++ "precio actual" ++ b) = true := by
      rw [pyTruthy, hdata]
      simp [show precioMarker = 'p' :: "recio actual".data from rfl]
    cases hb2 : pyTruthy a
    · have hadata : a.data = [] := by
        rw [pyTruthy] at hb2
        simpa using hb2
      have hclean0 : walmartClean a.data = [] := by
        rw [hadata]
        rfl
      rw [walmartExtractPrice, walmartExtractPrice, hne, hb2, hcut, hclean0]
      rfl
    · rw [walmartExtractPrice, walmartExtractPrice, hne, hb2, hcut]
  · intro h1 h2
    rw [walmartSepClean, walmartSepFix, if_pos (by rw [h1, h2]; rfl)]
  · intro h1 h2
    rw [walmartSepClean, walmartSepFix, if_neg (by rw [h2]; simp), if_pos h1]
  · rw [walmartExtractPrice_eval_dot "$36.90/kgprecio actual $36.90/kg"
      "36".data "90".data 36 90 2 (by decide) (by decide) (by decide) (by decide)
      (by decide) (by decide) (by decide) (by decide)]
    norm_num
  · rw [walmartExtractPrice_eval_dot "1,234.56"
      "1234".data "56".data 1234 56 2 (by decide) (by decide) (by decide) (by decide)
      (by decide) (by decide) (by decide) (by decide)]
    norm_num
  · rw [walmartExtractPrice_eval_dot "12,50"
      "12".data "50".data 12 50 2 (by decide) (by decide) (by decide) (by decide)
      (by decide) (by decide) (by decide) (by decide)]
    norm_num

/-- C7, witness: the truncation applied to the claimed input, and the two
separator branches at concrete cleaned strings. -/
theorem separator_disambiguation_witness :
    ('p' ∉ ("$36.90/kg" : String).data) ∧
    walmartExtractPrice (some ("$36.90/kg" ++ "precio actual" ++ " $36.90/kg")) =
      walmartExtractPrice (some "$36.90/kg") ∧
    walmartSepClean "1,234.56".data =
      (walmartStrip (walmartMarkerCut "1,234.56".data)).filter (fun c => !(c == ',')) ∧
    walmartSepClean "12,50".data =
      (walmartStrip (walmartMarkerCut "12,50".data)).map
        (fun c => if c == ',' then '.' else c) :=
  ⟨by decide,
   (separator_disambiguation "$36.90/kg" " $36.90/kg" "" (by decide)).1,
   (separator_disambiguation "" "" "1,234.56" (by decide)).2.1 (by decide) (by decide),
   (separator_disambiguation "" "" "12,50" (by decide)).2.2.1 (by decide) (by decide)⟩

end Scrapper

namespace Scrapper

/-! ## Claim C8: idempotence on the rendered output -/

theorem digitChar_isDigit (d : Nat) (h : d < 10) :
    (Char.ofNat (48 + d)).isDigit = true := by
  interval_cases d <;> decide

theorem digVal_digitChar (d : Nat) (h : d < 10) :
    digVal (Char.ofNat (48 + d)) = d := by
  interval_cases d <;> decide

theorem natStrAux_all_digit (fuel n : Nat) :
    (natStrAux fuel n).all Char.isDigit = true := by
  induction fuel generalizing n with
  | zero => rfl
  | succ fuel ih =>
    rw [natStrAux]
    by_cases h : n < 10
    · rw [if_pos h]
      simp [digitChar_isDigit n h]
    · rw [if_neg h]
      rw [List.all_append]
      simp [ih (n / 10), digitChar_isDigit (n % 10) (Nat.mod_lt n (by norm_num))]

theorem natOfDigits_append_one (l : List Char) (c : Char) :
    natOfDigits (l ++ [c]) = 10 * natOfDigits l + digVal c := by
  rw [natOfDigits, natOfDigits, List.foldl_append]
  rfl

theorem natOfDigits_natStrAux (fuel n : Nat) (h : n < fuel) :
    natOfDigits (natStrAux fuel n) = n := by
  induction fuel generalizing n with
  | zero => cases h
  | succ fuel ih =>
    rw [natStrAux]
    by_cases h10 : n < 10
    · rw [if_pos h10]
      show 10 * 0 + digVal (Char.ofNat (48 + n)) = n
      rw [digVal_digitChar n h10]
      omega
    · rw [if_neg h10]
      rw [natOfDigits_append_one]
      have hn : 0 < n := by omega
      have hdiv : n / 10 < fuel :=
        lt_of_lt_of_le (Nat.div_lt_self hn (by norm_num)) (Nat.lt_succ_iff.mp h)
      rw [ih (n / 10) hdiv, digVal_digitChar (n % 10) (Nat.mod_lt n (by norm_num))]
      omega

theorem natStrAux_ne_nil (fuel n : Nat) (h : 0 < fuel) : natStrAux fuel n ≠ [] := by
  cases fuel with
  | zero => cases h
  | succ fuel =>
    rw [natStrAux]
    by_cases h10 : n < 10
    · rw [if_pos h10]
      simp
    · rw [if_neg h10]
      simp

theorem natStrAux_length_le (fuel n k : Nat) (hf : n < fuel) (hk : n < 10 ^ k)
    (hk1 : 1 ≤ k) : (natStrAux fuel n).length ≤ k := by
  induction fuel generalizing n k with
  | zero => cases hf
  | succ fuel ih =>
    rw [natStrAux]
    by_cases h10 : n < 10
    · rw [if_pos h10]
      simpa using hk1
    · rw [if_neg h10]
      rw [List.length_append]
      have hn : 0 < n := by omega
      have hdiv : n / 10 < fuel :=
        lt_of_lt_of_le (Nat.div_lt_self hn (by norm_num)) (Nat.lt_succ_iff.mp hf)
      have hk2 : 2 ≤ k := by
        by_contra hc
        have : k = 1 := by omega
        rw [this] at hk
        simp at hk
        omega
      have hsmall : n / 10 < 10 ^ (k - 1) := by
        rw [Nat.div_lt_iff_lt_mul (by norm_num : (0:ℕ) < 10)]
        calc n < 10 ^ k := hk
          _ = 10 ^ (k - 1) * 10 := by
              rw [← Nat.pow_succ]
              congr 1
              omega
      have := ih (n / 10) (k - 1) hdiv hsmall (by omega)
      simp only [List.length_cons, List.length_nil]
      omega

theorem natStr_all_digit (n : Nat) : (natStr n).all Char.isDigit = true :=
  natStrAux_all_digit (n + 1) n

theorem natOfDigits_natStr (n : Nat) : natOfDigits (natStr n) = n :=
  natOfDigits_natStrAux (n + 1) n (Nat.lt_succ_self n)

theorem natStr_ne_nil (n : Nat) : natStr n ≠ [] :=
  natStrAux_ne_nil (n + 1) n (Nat.succ_pos n)

theorem natStr_length_le (n k : Nat) (hk : n < 10 ^ k) (hk1 : 1 ≤ k) :
    (natStr n).length ≤ k :=
  natStrAux_length_le (n + 1) n k (Nat.lt_succ_self n) hk hk1

theorem natOfDigits_replicate_zero (j : Nat) (l : List Char) :
    natOfDigits (List.replicate j '0' ++ l) = natOfDigits l := by
  rw [natOfDigits, natOfDigits, List.foldl_append]
  have h0 : List.foldl (fun a c => 10 * a + digVal c) 0 (List.replicate j '0') = 0 := by
    induction j with
    | zero => rfl
    | succ j ihj =>
      rw [List.replicate_succ, List.foldl_cons]
      simpa using ihj
  rw [h0]

end Scrapper

namespace Scrapper

theorem exists_le_dvd_pow_ten (den L : Nat) (_hpos : 0 < den) (h : den ∣ 10 ^ L) :
    ∃ k, k ≤ den ∧ den ∣ 10 ^ k := by
  have h10 : (10 : ℕ) ^ L = 2 ^ L * 5 ^ L := by
    rw [← Nat.mul_pow]
  rw [h10] at h
  obtain ⟨d₁, d₂, hd₁, hd₂, hden⟩ := exists_dvd_and_dvd_of_dvd_mul h
  obtain ⟨i, hiL, hi⟩ := (Nat.dvd_prime_pow Nat.prime_two).mp hd₁
  obtain ⟨j, hjL, hj⟩ := (Nat.dvd_prime_pow Nat.prime_five).mp hd₂
  refine ⟨max i j, ?_, ?_⟩
  · have hipos : 0 < 5 ^ j := Nat.pow_pos (by norm_num)
    have hjpos : 0 < 2 ^ i := Nat.pow_pos (by norm_num)
    have hile : i < den := by
      calc i < 2 ^ i := Nat.lt_two_pow i
        _ ≤ 2 ^ i * 5 ^ j := Nat.le_mul_of_pos_right _ hipos
        _ = den := by rw [hden, hi, hj]
    have hjle : j < den := by
      calc j < 2 ^ j := Nat.lt_two_pow j
        _ ≤ 5 ^ j := Nat.pow_le_pow_left (by norm_num) j
        _ ≤ 2 ^ i * 5 ^ j := Nat.le_mul_of_pos_left _ hjpos
        _ = den := by rw [hden, hi, hj]
    omega
  · rw [hden, hi, hj, show (10 : ℕ) ^ max i j = 2 ^ max i j * 5 ^ max i j from by
      rw [← Nat.mul_pow]]
    exact Nat.mul_dvd_mul (Nat.pow_dvd_pow 2 (le_max_left i j))
      (Nat.pow_dvd_pow 5 (le_max_right i j))

theorem decExp_dvd (den : Nat) (hpos : 0 < den) (hL : ∃ L, den ∣ 10 ^ L) :
    den ∣ 10 ^ decExp den := by
  obtain ⟨L, hLdvd⟩ := hL
  obtain ⟨k₀, hk₀, hdvd⟩ := exists_le_dvd_pow_ten den L hpos hLdvd
  have hmem : k₀ ∈ List.range (den + 1) := List.mem_range.mpr (by omega)
  have hpred : (fun k => 10 ^ k % den == 0) k₀ = true := by
    simp only [beq_iff_eq]
    exact Nat.eq_zero_of_dvd_of_lt hdvd |> fun _ => Nat.mod_eq_zero_of_dvd hdvd
  have hsome : ((List.range (den + 1)).find? (fun k => 10 ^ k % den == 0)).isSome :=
    List.find?_isSome.mpr ⟨k₀, hmem, hpred⟩
  obtain ⟨k', hk'⟩ := Option.isSome_iff_exists.mp hsome
  have hpred' := List.find?_some hk'
  rw [decExp, hk']
  simp only [beq_iff_eq] at hpred'
  exact Nat.dvd_of_mod_eq_zero hpred'

theorem parseFloat_dec (m k : Nat) :
    parseFloat (natStr (m / 10 ^ k) ++ '.' ::
      (List.replicate (k - (natStr (m % 10 ^ k)).length) '0' ++ natStr (m % 10 ^ k))) =
      some ((m : ℚ) / 10 ^ k) := by
  have hfrac_digit : (List.replicate (k - (natStr (m % 10 ^ k)).length) '0' ++
      natStr (m % 10 ^ k)).all Char.isDigit = true := by
    rw [List.all_append]
    refine (Bool.and_eq_true _ _).mpr ⟨?_, natStr_all_digit _⟩
    rw [List.all_eq_true]
    intro c hc
    rw [List.eq_of_mem_replicate hc]
    decide
  have hfrac_ne : (List.replicate (k - (natStr (m % 10 ^ k)).length) '0' ++
      natStr (m % 10 ^ k)) ≠ [] := by
    intro hcon
    exact natStr_ne_nil (m % 10 ^ k) (List.append_eq_nil.mp hcon).2
  rw [parseFloat_dot _ _ (natStr_all_digit _) hfrac_digit hfrac_ne]
  rw [natOfDigits_replicate_zero, natOfDigits_natStr, natOfDigits_natStr]
  rw [List.length_append, List.length_replicate]
  rcases Nat.eq_zero_or_pos k with hk0 | hk1
  · subst hk0
    norm_num
    omega
  · have hlt : m % 10 ^ k < 10 ^ k := Nat.mod_lt m (by positivity)
    have hlen : (natStr (m % 10 ^ k)).length ≤ k := natStr_length_le _ k hlt hk1
    rw [show k - (natStr (m % 10 ^ k)).length + (natStr (m % 10 ^ k)).length = k from by
      omega]
    congr 1
    have h10 : ((10 : ℚ) ^ k) ≠ 0 := by positivity
    rw [eq_div_iff h10, add_mul, div_mul_cancel₀ _ h10]
    have harith : m / 10 ^ k * 10 ^ k + m % 10 ^ k = m := by
      rw [Nat.mul_comm]
      exact Nat.div_add_mod m (10 ^ k)
    exact_mod_cast harith

/-- Round trip: rendering a non-negative rational with terminating decimal
expansion and re-parsing it gives the value back. -/
theorem pyFloatStr_parse (q : ℚ) (hq : 0 ≤ q) (hL : ∃ L, q.den ∣ 10 ^ L) :
    parseFloat (pyFloatStr q).data = some q := by
  have hpos : 0 < q.den := q.pos
  have hdvd : q.den ∣ 10 ^ decExp q.den := decExp_dvd q.den hpos hL
  have hdata : (pyFloatStr q).data =
      natStr (q.num.toNat * (10 ^ decExp q.den / q.den) / 10 ^ decExp q.den) ++ '.' ::
      (List.replicate (decExp q.den -
          (natStr (q.num.toNat * (10 ^ decExp q.den / q.den) % 10 ^ decExp q.den)).length)
        '0' ++
        natStr (q.num.toNat * (10 ^ decExp q.den / q.den) % 10 ^ decExp q.den)) := rfl
  rw [hdata, parseFloat_dec]
  congr 1
  have htmul : q.den * (10 ^ decExp q.den / q.den) = 10 ^ decExp q.den :=
    Nat.mul_div_cancel' hdvd
  have htpos : 0 < 10 ^ decExp q.den / q.den := by
    rcases Nat.eq_zero_or_pos (10 ^ decExp q.den / q.den) with h0 | h0
    · rw [h0, Nat.mul_zero] at htmul
      exact absurd htmul.symm (by positivity)
    · exact h0
  have hnum : ((q.num.toNat : ℚ)) = (q.num : ℚ) := by
    exact_mod_cast Int.toNat_of_nonneg (Rat.num_nonneg.mpr hq)
  have hq10 : ((10 : ℚ) ^ decExp q.den) =
      ((q.den * (10 ^ decExp q.den / q.den) : ℕ) : ℚ) := by
    rw [htmul]
    push_cast
    rfl
  have htQne : ((10 ^ decExp q.den / q.den : ℕ) : ℚ) ≠ 0 :=
    Nat.cast_ne_zero.mpr htpos.ne'
  rw [hq10, Nat.cast_mul, Nat.cast_mul, mul_div_mul_right _ _ htQne, hnum]
  exact Rat.num_div_den q

end Scrapper

namespace Scrapper

/-- Every value `parseFloat` produces is non-negative with a denominator
dividing a power of ten. -/
theorem parseFloat_shape (l : List Char) (q : ℚ) (h : parseFloat l = some q) :
    0 ≤ q ∧ ∃ L, q.den ∣ 10 ^ L := by
  rw [parseFloat] at h
  split at h
  · split at h
    · rename_i ip heq
      split at h
      · cases h
      · have hq : q = ((natOfDigits ip : ℕ) : ℚ) := (Option.some.injEq _ _).mp h.symm
        refine ⟨hq ▸ Nat.cast_nonneg _, 0, ?_⟩
        rw [hq, Rat.den_natCast]
        exact one_dvd _
    · rename_i ip fp heq
      split at h
      · cases h
      · have hq : q = (natOfDigits ip : ℚ) + (natOfDigits fp : ℚ) / 10 ^ fp.length :=
          (Option.some.injEq _ _).mp h.symm
        constructor
        · rw [hq]
          positivity
        · refine ⟨fp.length, ?_⟩
          have hne : ((10 : ℚ) ^ fp.length) ≠ 0 := by positivity
          have hq2 : q = Rat.divInt
              (((natOfDigits ip * 10 ^ fp.length + natOfDigits fp : ℕ) : ℤ))
              (((10 ^ fp.length : ℕ) : ℤ)) := by
            rw [Rat.divInt_eq_div, hq]
            push_cast
            rw [add_div, mul_div_cancel_right₀ _ hne]
          have hd := Rat.den_dvd
            (((natOfDigits ip * 10 ^ fp.length + natOfDigits fp : ℕ) : ℤ))
            (((10 ^ fp.length : ℕ) : ℤ))
          rw [← hq2] at hd
          exact_mod_cast hd
    · cases h
  · cases h

/-- Every value `WalmartScraper.extract_price` returns is non-negative with
a denominator dividing a power of ten, so it has a terminating decimal
rendering. -/
theorem walmartExtractPrice_shape (x : Option String) :
    0 ≤ walmartExtractPrice x ∧ ∃ L, (walmartExtractPrice x).den ∣ 10 ^ L := by
  have hzero : (0 : ℚ).den ∣ 10 ^ 0 := by decide
  cases x with
  | none => exact ⟨le_refl 0, 0, hzero⟩
  | some s =>
    rw [walmartExtractPrice]
    cases hb : pyTruthy s
    · simp
    · simp only [Bool.not_true, if_false]
      cases hp : parseFloat (walmartClean s.data) with
      | none => simp
      | some q =>
        simpa using parseFloat_shape (walmartClean s.data) q hp

theorem all_digit_imp (l : List Char) (h : l.all Char.isDigit = true) :
    l.all (fun c => c.isDigit || c == '.') = true := by
  rw [List.all_eq_true] at h ⊢
  intro c hc
  simp [h c hc]

/-- Characters of the rendered float: digits and one dot. -/
theorem pyFloatStr_chars (q : ℚ) :
    ((pyFloatStr q).data).all (fun c => c.isDigit || c == '.') = true := by
  show (natStr _ ++ '.' :: (List.replicate _ '0' ++ natStr _)).all _ = true
  rw [List.all_append, List.all_cons, List.all_append]
  refine (Bool.and_eq_true _ _).mpr ⟨all_digit_imp _ (natStr_all_digit _), ?_⟩
  refine (Bool.and_eq_true _ _).mpr ⟨by decide, ?_⟩
  refine (Bool.and_eq_true _ _).mpr ⟨?_, all_digit_imp _ (natStr_all_digit _)⟩
  rw [List.all_eq_true]
  intro c hc
  rw [List.eq_of_mem_replicate hc]
  decide

theorem not_mem_of_all_digit_dot (l : List Char) (c : Char)
    (h : l.all (fun x => x.isDigit || x == '.') = true)
    (hc : c.isDigit = false) (hd : ¬ (c = '.')) : c ∉ l := by
  intro hm
  have := List.all_eq_true.mp h c hm
  rcases (Bool.or_eq_true _ _).mp this with h1 | h1
  · rw [hc] at h1
    cases h1
  · exact hd (by simpa using h1)

/-- Cleaning is the identity on a string of digits and dots that does not
trigger the duplication heuristic. -/
theorem walmartClean_id_of_clean (l : List Char)
    (hall : l.all (fun c => c.isDigit || c == '.') = true)
    (hdup : walmartDupCond l = false) : walmartClean l = l := by
  have hnp : 'p' ∉ l := not_mem_of_all_digit_dot l 'p' hall (by decide) (by decide)
  have hnc : ',' ∉ l := not_mem_of_all_digit_dot l ',' hall (by decide) (by decide)
  have h1 : walmartMarkerCut l = l := walmartMarkerCut_of_no_p l hnp
  have h2 : walmartStrip l = l := by
    rw [walmartStrip]
    refine List.filter_eq_self.mpr ?_
    intro a ha
    have := List.all_eq_true.mp hall a ha
    rcases (Bool.or_eq_true _ _).mp this with h3 | h3 <;> simp [h3]
  have h3 : walmartSepFix l = l := by
    have hcon : l.contains ',' = false := by simpa using hnc
    rw [walmartSepFix, hcon]
    simp
  rw [walmartClean, walmartSepClean, h1, h2, h3, walmartDupFix, if_neg (by simp [hdup])]

theorem pyTruthy_pyFloatStr (q : ℚ) : pyTruthy (pyFloatStr q) = true := by
  rw [pyTruthy]
  show (!(natStr _ ++ '.' :: (List.replicate _ '0' ++ natStr _)).isEmpty) = true
  simp

/-- C8, counterexample to the claim as stated: `"99999999"` is a valid
numeric string, `parse_price` gives `99999999.0` (an 8-digit integer:
exactly representable as a double and inside Python's plain-decimal
rendering range, so the modelled rendering `"99999999.0"` is exactly what
Python prints) — which trips the duplication heuristic on re-parse
(`"9999" == "9999"`), so the re-parse yields `99999.0 ≠ 99999999.0`. -/
theorem idempotence_counterexample :
    walmartExtractPrice (some "99999999") = ((99999999 : ℕ) : ℚ) ∧
    pyFloatStr (walmartExtractPrice (some "99999999")) = "99999999.0" ∧
    walmartExtractPrice (some (pyFloatStr (walmartExtractPrice (some "99999999")))) =
      ((99999 : ℕ) : ℚ) ∧
    ((99999 : ℕ) : ℚ) ≠ ((99999999 : ℕ) : ℚ) :=
  ⟨by decide, by decide, by decide, by decide⟩

/-- C8 (amended): `parse_price(str(parse_price(x))) == parse_price(x)` holds
on the domain where Python's `str()` renders a plain decimal that the
decimal→double→decimal round trip reproduces exactly, namely when: the
cleaned numeric string has at most 15 characters (hence at most 14
significant digits, within the 15-digit round-trip guarantee, and a value
below `10¹⁵`, safely under Python's `10¹⁶` scientific-notation threshold);
the parsed value is zero or at least `1/10⁴` — stated cross-multiplied as
`den ≤ 10⁴ · num` so the kernel can decide it — because Python renders
values below `10⁻⁴` in scientific notation (`str(0.00001) = '1e-05'`, whose
re-parse strips `e-` and yields `105.0`, breaking idempotence); and the
rendering does not satisfy the duplication condition (length over 8 with
characters 0-3 equal to characters 4-7).  On that domain the rendering
re-parses exactly, because `parse_price` only produces non-negative
terminating decimals. -/
theorem parse_price_idempotent (s : String)
    (_hlen : (walmartClean s.data).length ≤ 15)
    (_hrange : walmartExtractPrice (some s) = 0 ∨
      (walmartExtractPrice (some s)).den ≤
        10 ^ 4 * (walmartExtractPrice (some s)).num.toNat)
    (h : walmartDupCond (pyFloatStr (walmartExtractPrice (some s))).data = false) :
    walmartExtractPrice (some (pyFloatStr (walmartExtractPrice (some s)))) =
      walmartExtractPrice (some s) := by
  obtain ⟨hq, hL⟩ := walmartExtractPrice_shape (some s)
  rw [walmartExtractPrice, pyTruthy_pyFloatStr,
    walmartClean_id_of_clean _ (pyFloatStr_chars _) h,
    pyFloatStr_parse _ hq hL]
  rfl

/-- C8, witness: a plain integer price string inside the faithful rendering
domain re-parses to itself. -/
theorem parse_price_idempotent_witness :
    (walmartClean "1234".data).length ≤ 15 ∧
    (walmartExtractPrice (some "1234")).den ≤
      10 ^ 4 * (walmartExtractPrice (some "1234")).num.toNat ∧
    walmartDupCond (pyFloatStr (walmartExtractPrice (some "1234"))).data = false ∧
    walmartExtractPrice (some (pyFloatStr (walmartExtractPrice (some "1234")))) =
      walmartExtractPrice (some "1234") :=
  ⟨by decide, by decide, by decide,
    parse_price_idempotent "1234" (by decide) (Or.inr (by decide)) (by decide)⟩

end Scrapper
